import Mathlib

/-!
# libjson primitives: `include/json/json_primitives.h`

A shallow embedding of the leaf value classes of libjson (`json::String`,
`json::Double`, `json::Integer`, `json::BigInteger`, `json::Bool`,
`json::Null`) and proofs of their construction, mutation and cloning
contracts.

Conventions of the embedding.

* A C++ object is a Lean structure holding its data members; the base-class
  subobject `Value` is the parent structure.
* A constructor that may throw returns `Except Exception T`: no object exists
  when it throws.
* A member function that mutates `*this` and may throw returns a `Call T`:
  the object as the call leaves it, together with the exception thrown, if any.
* `new T(...)` is a construction followed by an allocation in an explicit heap.
* `double` is an IEEE 754 binary64 datum given by its three bit fields; `int`
  and `intmax_t` are the integers of their two's-complement ranges.
-/

/-- Text of an exception message (`what()`). -/
abbrev what_t : Type := String

namespace std

/-- One `char` of a `std::string`, as its unsigned byte value. -/
abbrev byte : Type := Fin 256

/-- C++ `std::string`: a finite sequence of bytes. -/
abbrev string : Type := List byte

end std

/-! ## `double` and `std::isfinite` -/

/-- C++ `double` as an IEEE 754 binary64 datum: sign bit, 11-bit biased
exponent, 52-bit fraction. -/
structure double where
  sign : Bool
  exponent : Fin 2048
  fraction : Fin 4503599627370496
  deriving DecidableEq

namespace double

/-- The literal `0` converted to `double` (`m_value(0)`): positive zero. -/
def zero : double := ⟨false, 0, 0⟩

/-- Negative zero. -/
def negZero : double := ⟨true, 0, 0⟩

/-- The value `1.0`. -/
def one : double := ⟨false, 1023, 0⟩

/-- Positive infinity, the value of `1.0/0.0`. -/
def posInf : double := ⟨false, 2047, 0⟩

/-- Negative infinity. -/
def negInf : double := ⟨true, 2047, 0⟩

/-- The default quiet NaN. -/
def qNaN : double := ⟨false, 2047, 2251799813685248⟩

/-- Largest finite value (`DBL_MAX`). -/
def maxFinite : double := ⟨false, 2046, 4503599627370495⟩

/-- Smallest positive subnormal value. -/
def minSubnormal : double := ⟨false, 0, 1⟩

/-- Function `std::isnan`: all exponent bits set and a non-zero fraction. -/
def isnan (d : double) : Bool := d.exponent.val == 2047 && d.fraction.val != 0

/-- Function `std::isinf`: all exponent bits set and a zero fraction. -/
def isinf (d : double) : Bool := d.exponent.val == 2047 && d.fraction.val == 0

/-- Function `std::isfinite` of `<cmath>`: the datum is zero, subnormal or normal, that is, its
exponent field is not all ones. -/
def isfinite (d : double) : Bool := d.exponent.val != 2047

/-- The built-in `==` of `double`: a NaN compares unequal to everything, the
two zeros compare equal, any other two data compare equal when they are the
same datum. -/
def eq (a b : double) : Bool :=
  if isnan a || isnan b then false
  else if a.exponent.val == 0 && a.fraction.val == 0
      && b.exponent.val == 0 && b.fraction.val == 0 then true
  else decide (a = b)

end double

namespace json

/-- C++ `bool`. -/
abbrev bool : Type := Bool

/-! ## Collaborators declared in `json.h` and `json_exception.h` -/

/-- Modelled from the spec: the type tags of `json.h` (not among the sources),
one per leaf variant, under the names the constructors of
`json_primitives.h` pass to the base class. -/
inductive ValueType
  | TYPE_STRING
  | TYPE_DOUBLE
  | TYPE_INTEGER
  | TYPE_BIGINTEGER
  | TYPE_BOOL
  | TYPE_NULL
  deriving DecidableEq

export ValueType (TYPE_STRING TYPE_DOUBLE TYPE_INTEGER TYPE_BIGINTEGER TYPE_BOOL TYPE_NULL)

/-- Modelled from the spec: the abstract base class `Value` of `json.h` (not
among the sources). It "assigns each concrete instance an immutable type tag
at construction": the constructor `Value(t)` stores `t`, and no operation of
the base class changes it. -/
structure Value where
  type : ValueType
  deriving DecidableEq

/-- Modelled from the spec: the copy constructor of `Value`, used by the
implicitly defined copy constructor of `String`; a copy is "of the same
concrete variant", so it carries the tag of its source. -/
def Value.copy (v : Value) : Value := ⟨v.type⟩

/-- Modelled from the spec: the two failure kinds of `json_exception.h` (not
among the sources), each constructed from a message. -/
inductive Exception
  | InvalidUtf8Exception (what : what_t)
  | InvalidFloatingPointException (what : what_t)
  deriving DecidableEq

export Exception (InvalidUtf8Exception InvalidFloatingPointException)

/-- Outcome of a call of a mutating member function: the object as the call
leaves it, and the exception that left the call, if one did. -/
structure Call (T : Type) where
  self : T
  thrown : Option Exception

/-! ## Integer types -/

/-- C++ `int`: the integers of the 32-bit two's-complement range. -/
abbrev int : Type := { i : Int // -2147483648 ≤ i ∧ i ≤ 2147483647 }

/-- C++ `intmax_t` (`<stdint.h>`): the integers of the 64-bit
two's-complement range. -/
abbrev intmax_t : Type := { i : Int // -9223372036854775808 ≤ i ∧ i ≤ 9223372036854775807 }

/-- Reduction of an integer into the range of `intmax_t` modulo `2^64`, the
result of converting an out-of-range value to a signed 64-bit type. -/
def wrap_intmax (z : Int) : Int :=
  (z + 9223372036854775808) % 18446744073709551616 - 9223372036854775808

/-- Integral conversion `int` to `intmax_t`, as applied by the member
initializer `value(i.value)` of `BigInteger(const Integer &)`. -/
def int_to_intmax (i : int) : intmax_t :=
  ⟨wrap_intmax i.val, by unfold wrap_intmax; omega⟩

/-- The literal `0` as an `int`. -/
def int_zero : int := ⟨0, by omega⟩

/-- The literal `0` as an `intmax_t`. -/
def intmax_zero : intmax_t := ⟨0, by omega⟩

/-- Smallest `int` (`INT_MIN`). -/
def INT_MIN : int := ⟨-2147483648, by omega⟩

/-- Largest `int` (`INT_MAX`). -/
def INT_MAX : int := ⟨2147483647, by omega⟩

/-! ## UTF-8 well-formedness -/

/-- Modelled from the spec: a valid Unicode code point that UTF-8 may encode,
that is, a scalar value: at most `U+10FFFF` and not a surrogate
(`U+D800..U+DFFF`). -/
def is_scalar_value (c : Nat) : Bool :=
  c < 0xD800 || (0xE000 ≤ c && c < 0x110000)

/-- Modelled from the spec: the UTF-8 encoding rules, giving the shortest
form of a code point in one to four bytes. -/
def utf8_encode (c : Nat) : std.string :=
  if c < 0x80 then
    [Fin.ofNat c]
  else if c < 0x800 then
    [Fin.ofNat (0xC0 + c / 64), Fin.ofNat (0x80 + c % 64)]
  else if c < 0x10000 then
    [Fin.ofNat (0xE0 + c / 4096), Fin.ofNat (0x80 + c / 64 % 64), Fin.ofNat (0x80 + c % 64)]
  else
    [Fin.ofNat (0xF0 + c / 262144), Fin.ofNat (0x80 + c / 4096 % 64),
     Fin.ofNat (0x80 + c / 64 % 64), Fin.ofNat (0x80 + c % 64)]

/-- Modelled from the spec: the encoding of a sequence of code points, one
after the other. -/
def utf8_encode_all : List Nat → std.string
  | [] => []
  | c :: cs => utf8_encode c ++ utf8_encode_all cs

/-- Modelled from the spec: "well-formed UTF-8: a byte sequence that decodes
unambiguously to a sequence of valid Unicode code points under the UTF-8
encoding rules", that is, the encoding of some sequence of scalar values. -/
def WellFormedUtf8 (s : std.string) : Prop :=
  ∃ cs : List Nat, (∀ c ∈ cs, is_scalar_value c = true) ∧ s = utf8_encode_all cs

/-- Modelled from the spec: a continuation byte `10xxxxxx` of a multi-byte
sequence. -/
def is_continuation (b : std.byte) : Bool := 0x80 ≤ b.val && b.val < 0xC0

/-- Modelled from the spec: the validation `String::set` applies to its
candidate (its definition is not among the sources): "every byte sequence
decodes to valid Unicode code points, no overlong encodings, no unpaired
surrogates represented as UTF-8, no truncated multi-byte sequences". The
lead byte gives the length of a sequence, the bytes after it must be
continuation bytes, and the code point decoded must need that length and be
a scalar value. -/
def is_valid_utf8 : std.string → Bool
  | [] => true
  | b0 :: rest =>
    if b0.val < 0x80 then
      is_valid_utf8 rest
    else if b0.val < 0xC0 then
      false
    else if b0.val < 0xE0 then
      match rest with
      | b1 :: rest1 =>
        is_continuation b1
          && 0x80 ≤ (b0.val - 0xC0) * 64 + (b1.val - 0x80)
          && is_valid_utf8 rest1
      | _ => false
    else if b0.val < 0xF0 then
      match rest with
      | b1 :: b2 :: rest2 =>
        is_continuation b1 && is_continuation b2
          && 0x800 ≤ (b0.val - 0xE0) * 4096 + (b1.val - 0x80) * 64 + (b2.val - 0x80)
          && is_scalar_value ((b0.val - 0xE0) * 4096 + (b1.val - 0x80) * 64 + (b2.val - 0x80))
          && is_valid_utf8 rest2
      | _ => false
    else if b0.val < 0xF8 then
      match rest with
      | b1 :: b2 :: b3 :: rest3 =>
        is_continuation b1 && is_continuation b2 && is_continuation b3
          && 0x10000 ≤ (b0.val - 0xF0) * 262144 + (b1.val - 0x80) * 4096
                + (b2.val - 0x80) * 64 + (b3.val - 0x80)
          && is_scalar_value ((b0.val - 0xF0) * 262144 + (b1.val - 0x80) * 4096
                + (b2.val - 0x80) * 64 + (b3.val - 0x80))
          && is_valid_utf8 rest3
      | _ => false
    else
      false

/-! ## `class String` -/

/-- Class `String : public Value`, with its private member `m_value`. -/
structure String extends Value where
  m_value : std.string
  deriving DecidableEq

namespace String

/-- Constructor `String() : Value(TYPE_STRING) { }`; `m_value` is
default-initialized to the empty string. -/
def default : String := { type := TYPE_STRING, m_value := [] }

/-- Constructor `String(const std::string &s) : Value(TYPE_STRING), m_value(s) { }`. -/
def ofString (s : std.string) : String := { type := TYPE_STRING, m_value := s }

/-- Member `std::string value() const throw() { return m_value; }`. -/
def value (self : String) : std.string := self.m_value

/-- Modelled from the spec: `void set(const std::string &str)`, declared in
the header and defined outside the sources: it "validates the candidate is
well-formed UTF-8 [...]; if valid, replaces the payload; if invalid, fails
with an invalid encoding condition and leaves the previous payload
unchanged". The message of the exception is not specified. -/
def set (self : String) (str : std.string) : Call String :=
  if !is_valid_utf8 str then
    { self := self, thrown := some (InvalidUtf8Exception "Invalid UTF-8.") }
  else
    { self := { self with m_value := str }, thrown := none }

/-- Implicitly defined copy constructor `String(const String &)`: copies the
base-class subobject and then the member `m_value`. -/
def copy (s : String) : String := { toValue := Value.copy s.toValue, m_value := s.m_value }

end String

/-! ## `class Double` -/

/-- Class `Double : public Value`, with its private member `m_value`. -/
structure Double extends Value where
  m_value : double
  deriving DecidableEq

namespace Double

/-- Constructor `Double() : Value(TYPE_DOUBLE), m_value(0) { }`. -/
def default : Double := { type := TYPE_DOUBLE, m_value := double.zero }

/-- Member `double value() const throw() { return m_value; }`. -/
def value (self : Double) : double := self.m_value

/-- Member `void set(double d)`: throws before the assignment when `d` is not
finite, assigns otherwise. -/
def set (self : Double) (d : double) : Call Double :=
  if !double.isfinite d then
    { self := self
      thrown := some (InvalidFloatingPointException "Non-finite double passed to json::Double.") }
  else
    { self := { self with m_value := d }, thrown := none }

/-- Constructor `Double(double d) : Value(TYPE_DOUBLE), m_value(0) { set(d); }`:
an exception leaving `set` leaves the constructor, and no object is created. -/
def ofDouble (d : double) : Except Exception Double :=
  let self : Double := { type := TYPE_DOUBLE, m_value := double.zero }
  match self.set d with
  | { self := _, thrown := some e } => Except.error e
  | { self := self1, thrown := none } => Except.ok self1

/-- Constructor `Double(const Double &d) : Value(TYPE_DOUBLE), m_value(d.m_value) { }`. -/
def copy (d : Double) : Double := { type := TYPE_DOUBLE, m_value := d.m_value }

end Double

/-! ## `class Integer` -/

/-- Class `Integer : public Value`, with its public member `value`. -/
structure Integer extends Value where
  value : int
  deriving DecidableEq

namespace Integer

/-- Constructor `Integer() : Value(TYPE_INTEGER), value(0) { }`. -/
def default : Integer := { type := TYPE_INTEGER, value := int_zero }

/-- Constructor `Integer(int i) : Value(TYPE_INTEGER), value(i) { }`. -/
def ofInt (i : int) : Integer := { type := TYPE_INTEGER, value := i }

/-- Constructor `Integer(const Integer &i) : Value(TYPE_INTEGER), value(i.value) { }`. -/
def copy (i : Integer) : Integer := { type := TYPE_INTEGER, value := i.value }

/-- Assignment `x.value = i` to the public member. -/
def assign (self : Integer) (i : int) : Integer := { self with value := i }

end Integer

/-! ## `class BigInteger` -/

/-- Class `BigInteger : public Value`, with its public member `value`. -/
structure BigInteger extends Value where
  value : intmax_t
  deriving DecidableEq

namespace BigInteger

/-- Constructor `BigInteger() : Value(TYPE_BIGINTEGER), value(0) { }`. -/
def default : BigInteger := { type := TYPE_BIGINTEGER, value := intmax_zero }

/-- Constructor `BigInteger(intmax_t i) : Value(TYPE_BIGINTEGER), value(i) { }`. -/
def ofIntmax (i : intmax_t) : BigInteger := { type := TYPE_BIGINTEGER, value := i }

/-- Constructor `BigInteger(const BigInteger &i) : Value(TYPE_BIGINTEGER), value(i.value) { }`. -/
def copy (i : BigInteger) : BigInteger := { type := TYPE_BIGINTEGER, value := i.value }

/-- Constructor `BigInteger(const Integer &i) : Value(TYPE_BIGINTEGER), value(i.value) { }`:
the `int` member is converted to `intmax_t`. -/
def ofInteger (i : Integer) : BigInteger :=
  { type := TYPE_BIGINTEGER, value := int_to_intmax i.value }

/-- Assignment `x.value = i` to the public member. -/
def assign (self : BigInteger) (i : intmax_t) : BigInteger := { self with value := i }

end BigInteger

/-! ## `class Bool` -/

/-- Class `Bool : public Value`, with its public member `value`. -/
structure Bool extends Value where
  value : bool
  deriving DecidableEq

namespace Bool

/-- Constructor `Bool() : Value(TYPE_BOOL), value(false) { }`. -/
def default : Bool := { type := TYPE_BOOL, value := false }

/-- Constructor `Bool(bool b) : Value(TYPE_BOOL), value(b) { }`. -/
def ofBool (b : bool) : Bool := { type := TYPE_BOOL, value := b }

/-- Constructor `Bool(const Bool &b) : Value(TYPE_BOOL), value(b.value) { }`. -/
def copy (b : Bool) : Bool := { type := TYPE_BOOL, value := b.value }

/-- Assignment `x.value = b` to the public member. -/
def assign (self : Bool) (b : bool) : Bool := { self with value := b }

end Bool

/-! ## `class Null` -/

/-- Class `Null : public Value`, without data members. -/
structure Null extends Value where
  deriving DecidableEq

namespace Null

/-- Constructor `Null() : Value(TYPE_NULL) { }`. -/
def default : Null := { type := TYPE_NULL }

/-- Constructor `Null(const Null &JSON_UNUSED(n)) : Value(TYPE_NULL) { }`. -/
def copy (_n : Null) : Null := { type := TYPE_NULL }

end Null

/-! ## Objects behind a `Value *`, virtual `clone`, and the heap -/

/-- The six concrete classes of the header. -/
inductive Class
  | String
  | Double
  | Integer
  | BigInteger
  | Bool
  | Null
  deriving DecidableEq

/-- The tag each class passes to the constructor of its base class. -/
def Class.tag : Class → ValueType
  | .String => TYPE_STRING
  | .Double => TYPE_DOUBLE
  | .Integer => TYPE_INTEGER
  | .BigInteger => TYPE_BIGINTEGER
  | .Bool => TYPE_BOOL
  | .Null => TYPE_NULL

/-- A complete object reached through a `Value *`: an instance of one of the
six concrete classes. -/
inductive Object
  | String (s : String)
  | Double (d : Double)
  | Integer (i : Integer)
  | BigInteger (i : BigInteger)
  | Bool (b : Bool)
  | Null (n : Null)
  deriving DecidableEq

/-- What an instance lets a caller observe of its payload: the result of
`value()` or the public member `value`; nothing for `Null`. -/
inductive Payload
  | bytes (s : std.string)
  | floating (d : double)
  | integer (i : int)
  | wide (i : intmax_t)
  | boolean (b : bool)
  | nothing
  deriving DecidableEq

namespace Object

/-- Dynamic type of an object. -/
def dynamic_type : Object → Class
  | .String _ => .String
  | .Double _ => .Double
  | .Integer _ => .Integer
  | .BigInteger _ => .BigInteger
  | .Bool _ => .Bool
  | .Null _ => .Null

/-- Base-class subobject of an object. -/
def base : Object → Value
  | .String s => s.toValue
  | .Double d => d.toValue
  | .Integer i => i.toValue
  | .BigInteger i => i.toValue
  | .Bool b => b.toValue
  | .Null n => n.toValue

/-- Type tag read through the base class. -/
def type (o : Object) : ValueType := o.base.type

/-- Observable payload of an object. -/
def payload : Object → Payload
  | .String s => .bytes s.value
  | .Double d => .floating d.value
  | .Integer i => .integer i.value
  | .BigInteger i => .wide i.value
  | .Bool b => .boolean b.value
  | .Null _ => .nothing

/-- Virtual `Value *clone() const`: each class returns `new T(*this)`, the
object built by its copy constructor. The allocation is `Heap.clone`. -/
def clone : Object → Object
  | .String s => .String (String.copy s)
  | .Double d => .Double (Double.copy d)
  | .Integer i => .Integer (Integer.copy i)
  | .BigInteger i => .BigInteger (BigInteger.copy i)
  | .Bool b => .Bool (Bool.copy b)
  | .Null n => .Null (Null.copy n)

end Object

/-- The mutations the header offers: the two setters, and assignment to the
public member `value` of `Integer`, `BigInteger` and `Bool`. -/
inductive Mutation
  | String_set (str : std.string)
  | Double_set (d : double)
  | Integer_assign (i : int)
  | BigInteger_assign (i : intmax_t)
  | Bool_assign (b : bool)
  deriving DecidableEq

/-- Effect of a mutation on an object: the object as the call leaves it,
whether the call returned or threw. A mutation that the class of the object
does not have is not a program, and gives `none`. -/
def Object.mutate : Object → Mutation → Option Object
  | .String s, .String_set str => some (.String (s.set str).self)
  | .Double x, .Double_set d => some (.Double (x.set d).self)
  | .Integer x, .Integer_assign i => some (.Integer (x.assign i))
  | .BigInteger x, .BigInteger_assign i => some (.BigInteger (x.assign i))
  | .Bool x, .Bool_assign b => some (.Bool (x.assign b))
  | _, _ => none

/-- Free store: the objects allocated so far; the address of an object is its
position, and a new-expression places its object at the next position. -/
abbrev Heap : Type := List Object

namespace Heap

/-- Object at address `p`, if one was allocated there. -/
def get (h : Heap) (p : Nat) : Option Object := h.get? p

/-- Allocation by a new-expression: the address of the new object and the
store that holds it. -/
def alloc (h : Heap) (o : Object) : Nat × Heap := (h.length, h ++ [o])

/-- Call of `p->clone()`: the pointer returned and the store afterwards. -/
def clone (h : Heap) (p : Nat) : Option (Nat × Heap) :=
  match h.get p with
  | none => none
  | some o => some (h.alloc o.clone)

/-- Mutation of the object at address `p`. -/
def mutate (h : Heap) (p : Nat) (m : Mutation) : Option Heap :=
  match h.get p with
  | none => none
  | some o =>
    match o.mutate m with
    | none => none
    | some o1 => some (h.set p o1)

/-- A sequence of mutations of the object at address `p`, in order. -/
def mutate_all (h : Heap) (p : Nat) : List Mutation → Option Heap
  | [] => some h
  | m :: ms =>
    match h.mutate p m with
    | none => none
    | some h1 => mutate_all h1 p ms

end Heap

/-- Objects a program can hold: those produced by a constructor of the
header, by `clone()`, or left behind by a mutation of such an object. -/
inductive Reachable : Object → Prop
  | String_default : Reachable (.String String.default)
  | String_ofString (s : std.string) : Reachable (.String (String.ofString s))
  | String_copy {x : String} : Reachable (.String x) → Reachable (.String (String.copy x))
  | Double_default : Reachable (.Double Double.default)
  | Double_ofDouble {d : double} {x : Double} :
      Double.ofDouble d = Except.ok x → Reachable (.Double x)
  | Double_copy {x : Double} : Reachable (.Double x) → Reachable (.Double (Double.copy x))
  | Integer_default : Reachable (.Integer Integer.default)
  | Integer_ofInt (i : int) : Reachable (.Integer (Integer.ofInt i))
  | Integer_copy {x : Integer} : Reachable (.Integer x) → Reachable (.Integer (Integer.copy x))
  | BigInteger_default : Reachable (.BigInteger BigInteger.default)
  | BigInteger_ofIntmax (i : intmax_t) : Reachable (.BigInteger (BigInteger.ofIntmax i))
  | BigInteger_copy {x : BigInteger} :
      Reachable (.BigInteger x) → Reachable (.BigInteger (BigInteger.copy x))
  | BigInteger_ofInteger {x : Integer} :
      Reachable (.Integer x) → Reachable (.BigInteger (BigInteger.ofInteger x))
  | Bool_default : Reachable (.Bool Bool.default)
  | Bool_ofBool (b : bool) : Reachable (.Bool (Bool.ofBool b))
  | Bool_copy {x : Bool} : Reachable (.Bool x) → Reachable (.Bool (Bool.copy x))
  | Null_default : Reachable (.Null Null.default)
  | Null_copy {x : Null} : Reachable (.Null x) → Reachable (.Null (Null.copy x))
  | clone {o : Object} : Reachable o → Reachable o.clone
  | mutate {o o1 : Object} {m : Mutation} :
      Reachable o → o.mutate m = some o1 → Reachable o1

/-! ## A caller that keeps going after a failed `set` -/

/-- Calls `x.set(d)` for each candidate in order, every call inside a
`try` block whose handler catches the exception and does nothing: the object
as the calls leave it. -/
def Double.set_all (self : Double) : List double → Double
  | [] => self
  | d :: ds => Double.set_all (self.set d).self ds

/-- The last finite candidate of a sequence, or `p0` when none of them is
finite: the value the sequence of writes is specified to leave. -/
def last_finite_or (p0 : double) (ds : List double) : double :=
  ((ds.filter double.isfinite).getLast?).getD p0

end json

/-! # Theorems -/

namespace double

theorem isfinite_eq_false_iff (d : double) :
    isfinite d = false ↔ isnan d = true ∨ isinf d = true := by
  unfold isfinite isnan isinf
  by_cases he : d.exponent.val = 2047 <;> by_cases hf : d.fraction.val = 0 <;> simp [he, hf]

theorem isinf_iff (d : double) : isinf d = true ↔ d = posInf ∨ d = negInf := by
  obtain ⟨s, e, f⟩ := d
  unfold isinf posInf negInf
  constructor
  · intro h
    simp only [Bool.and_eq_true, beq_iff_eq] at h
    have he : e = 2047 := Fin.ext h.1
    have hf : f = 0 := Fin.ext h.2
    subst he hf
    cases s <;> simp
  · rintro (h | h) <;> (injection h with _ he hf; subst he hf; rfl)

theorem nonfinite_of_named {d : double}
    (hd : isnan d = true ∨ d = posInf ∨ d = negInf) : isfinite d = false := by
  rw [isfinite_eq_false_iff]
  rcases hd with h | h
  · exact Or.inl h
  · exact Or.inr ((isinf_iff d).mpr h)

theorem eq_self_of_isfinite {d : double} (hd : isfinite d = true) : eq d d = true := by
  have hn : isnan d = false := by
    unfold isfinite at hd
    unfold isnan
    simp only [bne_iff_ne, ne_eq] at hd
    simp [hd]
  unfold eq
  simp [hn]

end double

namespace json

theorem Double.set_of_not_isfinite (x : Double) {d : double} (hd : double.isfinite d = false) :
    x.set d = ⟨x, some (InvalidFloatingPointException
      "Non-finite double passed to json::Double.")⟩ := by
  simp [Double.set, hd]

theorem Double.set_of_isfinite (x : Double) {d : double} (hd : double.isfinite d = true) :
    x.set d = { self := { x with m_value := d }, thrown := none } := by
  simp [Double.set, hd]

theorem Double.ofDouble_of_isfinite {d : double} (hd : double.isfinite d = true) :
    Double.ofDouble d = Except.ok { type := TYPE_DOUBLE, m_value := d } := by
  simp [Double.ofDouble, Double.set_of_isfinite _ hd]

theorem Double.ofDouble_of_not_isfinite {d : double} (hd : double.isfinite d = false) :
    Double.ofDouble d = Except.error
      (InvalidFloatingPointException "Non-finite double passed to json::Double.") := by
  simp [Double.ofDouble, Double.set_of_not_isfinite _ hd]

theorem Double.isfinite_set_self (x : Double) (d : double)
    (hx : double.isfinite x.m_value = true) :
    double.isfinite (x.set d).self.m_value = true := by
  cases hd : double.isfinite d
  · rw [Double.set_of_not_isfinite x hd]; exact hx
  · rw [Double.set_of_isfinite x hd]; exact hd

theorem clone_eq_Double {o : Object} {x : Double} (h : o.clone = Object.Double x) :
    ∃ y : Double, o = Object.Double y ∧ x = Double.copy y := by
  cases o with
  | Double y => exact ⟨y, rfl, by injection h with h; exact h.symm⟩
  | _ => cases h

theorem mutate_eq_Double {o : Object} {m : Mutation} {x : Double}
    (h : o.mutate m = some (Object.Double x)) :
    ∃ (y : Double) (d : double), o = Object.Double y ∧ x = (y.set d).self := by
  cases o with
  | Double y =>
    cases m with
    | Double_set d =>
      refine ⟨y, d, rfl, ?_⟩
      simp only [Object.mutate, Option.some.injEq, Object.Double.injEq] at h
      exact h.symm
    | _ => cases h
  | _ => cases m <;> cases h

/-- Every reachable object of class `Double` holds a finite payload. -/
theorem Reachable.double_finite {o : Object} (h : Reachable o) :
    ∀ x : Double, o = Object.Double x → double.isfinite x.m_value = true := by
  induction h with
  | Double_default =>
    intro x hx; injection hx with hx; subst hx; rfl
  | @Double_ofDouble d y hy =>
    intro x hx; injection hx with hx; subst hx
    cases hd : double.isfinite d
    · rw [Double.ofDouble_of_not_isfinite hd] at hy; cases hy
    · rw [Double.ofDouble_of_isfinite hd] at hy
      injection hy with hy; subst hy; exact hd
  | @Double_copy y _ ih =>
    intro x hx; injection hx with hx; subst hx
    exact ih y rfl
  | @clone o1 _ ih =>
    intro x hx
    obtain ⟨y, rfl, rfl⟩ := clone_eq_Double hx
    exact ih y rfl
  | @mutate o1 o2 m _ hm ih =>
    intro x hx
    subst hx
    obtain ⟨y, d, rfl, rfl⟩ := mutate_eq_Double hm
    exact Double.isfinite_set_self y d (ih y rfl)
  | _ => intro x hx; cases hx

end json

/-! ## UTF-8: the validation against the encoding rules -/

namespace json

theorem byte_ofNat_val (n : Nat) : (Fin.ofNat n : std.byte).val = n % 256 := rfl

theorem is_valid_utf8_cons (b0 : std.byte) (rest : std.string) :
    is_valid_utf8 (b0 :: rest) =
    if b0.val < 0x80 then
      is_valid_utf8 rest
    else if b0.val < 0xC0 then
      false
    else if b0.val < 0xE0 then
      match rest with
      | b1 :: rest1 =>
        is_continuation b1
          && 0x80 ≤ (b0.val - 0xC0) * 64 + (b1.val - 0x80)
          && is_valid_utf8 rest1
      | _ => false
    else if b0.val < 0xF0 then
      match rest with
      | b1 :: b2 :: rest2 =>
        is_continuation b1 && is_continuation b2
          && 0x800 ≤ (b0.val - 0xE0) * 4096 + (b1.val - 0x80) * 64 + (b2.val - 0x80)
          && is_scalar_value ((b0.val - 0xE0) * 4096 + (b1.val - 0x80) * 64 + (b2.val - 0x80))
          && is_valid_utf8 rest2
      | _ => false
    else if b0.val < 0xF8 then
      match rest with
      | b1 :: b2 :: b3 :: rest3 =>
        is_continuation b1 && is_continuation b2 && is_continuation b3
          && 0x10000 ≤ (b0.val - 0xF0) * 262144 + (b1.val - 0x80) * 4096
                + (b2.val - 0x80) * 64 + (b3.val - 0x80)
          && is_scalar_value ((b0.val - 0xF0) * 262144 + (b1.val - 0x80) * 4096
                + (b2.val - 0x80) * 64 + (b3.val - 0x80))
          && is_valid_utf8 rest3
      | _ => false
    else
      false := by
  cases rest with
  | nil => rfl
  | cons b1 r1 =>
    cases r1 with
    | nil => rfl
    | cons b2 r2 =>
      cases r2 with
      | nil => rfl
      | cons b3 r3 => rfl

theorem is_valid_utf8_encode_append (c : Nat) (hc : is_scalar_value c = true) (t : std.string) :
    is_valid_utf8 (utf8_encode c ++ t) = is_valid_utf8 t := by
  simp only [is_scalar_value, Bool.or_eq_true, Bool.and_eq_true, decide_eq_true_eq] at hc
  unfold utf8_encode
  split_ifs with h1 h2 h3
  · show is_valid_utf8 (Fin.ofNat c :: t) = is_valid_utf8 t
    rw [is_valid_utf8_cons, if_pos (by rw [byte_ofNat_val]; omega)]
  · show is_valid_utf8 (Fin.ofNat (0xC0 + c / 64) :: Fin.ofNat (0x80 + c % 64) :: t) =
      is_valid_utf8 t
    rw [is_valid_utf8_cons, if_neg (by rw [byte_ofNat_val]; omega),
      if_neg (by rw [byte_ofNat_val]; omega), if_pos (by rw [byte_ofNat_val]; omega)]
    simp only [is_continuation, byte_ofNat_val]
    have e1 : decide (0x80 ≤ (0x80 + c % 64) % 256) = true := decide_eq_true (by omega)
    have e2 : decide ((0x80 + c % 64) % 256 < 0xC0) = true := decide_eq_true (by omega)
    have e3 : decide (0x80 ≤ ((0xC0 + c / 64) % 256 - 0xC0) * 64
        + ((0x80 + c % 64) % 256 - 0x80)) = true := decide_eq_true (by omega)
    rw [e1, e2, e3]
    rfl
  · show is_valid_utf8 (Fin.ofNat (0xE0 + c / 4096) :: Fin.ofNat (0x80 + c / 64 % 64)
      :: Fin.ofNat (0x80 + c % 64) :: t) = is_valid_utf8 t
    rw [is_valid_utf8_cons, if_neg (by rw [byte_ofNat_val]; omega),
      if_neg (by rw [byte_ofNat_val]; omega), if_neg (by rw [byte_ofNat_val]; omega),
      if_pos (by rw [byte_ofNat_val]; omega)]
    simp only [is_continuation, byte_ofNat_val]
    have e0 : ((0xE0 + c / 4096) % 256 - 0xE0) * 4096 + ((0x80 + c / 64 % 64) % 256 - 0x80) * 64
        + ((0x80 + c % 64) % 256 - 0x80) = c := by omega
    have e1 : decide (0x80 ≤ (0x80 + c % 64) % 256) = true := decide_eq_true (by omega)
    have e2 : decide ((0x80 + c % 64) % 256 < 0xC0) = true := decide_eq_true (by omega)
    have e3 : decide (0x80 ≤ (0x80 + c / 64 % 64) % 256) = true := decide_eq_true (by omega)
    have e4 : decide ((0x80 + c / 64 % 64) % 256 < 0xC0) = true := decide_eq_true (by omega)
    have e5 : decide (0x800 ≤ c) = true := decide_eq_true (by omega)
    have e6 : is_scalar_value c = true := by
      simp only [is_scalar_value, Bool.or_eq_true, Bool.and_eq_true, decide_eq_true_eq]
      exact hc
    simp only [e0, e1, e2, e3, e4, e5, e6, Bool.and_self, Bool.true_and]
  · show is_valid_utf8 (Fin.ofNat (0xF0 + c / 262144) :: Fin.ofNat (0x80 + c / 4096 % 64)
      :: Fin.ofNat (0x80 + c / 64 % 64) :: Fin.ofNat (0x80 + c % 64) :: t) = is_valid_utf8 t
    rw [is_valid_utf8_cons, if_neg (by rw [byte_ofNat_val]; omega),
      if_neg (by rw [byte_ofNat_val]; omega), if_neg (by rw [byte_ofNat_val]; omega),
      if_neg (by rw [byte_ofNat_val]; omega), if_pos (by rw [byte_ofNat_val]; omega)]
    simp only [is_continuation, byte_ofNat_val]
    have e0 : ((0xF0 + c / 262144) % 256 - 0xF0) * 262144
        + ((0x80 + c / 4096 % 64) % 256 - 0x80) * 4096
        + ((0x80 + c / 64 % 64) % 256 - 0x80) * 64
        + ((0x80 + c % 64) % 256 - 0x80) = c := by omega
    have e1 : decide (0x80 ≤ (0x80 + c % 64) % 256) = true := decide_eq_true (by omega)
    have e2 : decide ((0x80 + c % 64) % 256 < 0xC0) = true := decide_eq_true (by omega)
    have e3 : decide (0x80 ≤ (0x80 + c / 64 % 64) % 256) = true := decide_eq_true (by omega)
    have e4 : decide ((0x80 + c / 64 % 64) % 256 < 0xC0) = true := decide_eq_true (by omega)
    have e7 : decide (0x80 ≤ (0x80 + c / 4096 % 64) % 256) = true := decide_eq_true (by omega)
    have e8 : decide ((0x80 + c / 4096 % 64) % 256 < 0xC0) = true := decide_eq_true (by omega)
    have e5 : decide (0x10000 ≤ c) = true := decide_eq_true (by omega)
    have e6 : is_scalar_value c = true := by
      simp only [is_scalar_value, Bool.or_eq_true, Bool.and_eq_true, decide_eq_true_eq]
      exact hc
    simp only [e0, e1, e2, e3, e4, e5, e6, e7, e8, Bool.and_self, Bool.true_and]

/-- Completeness of the validation: the encoding of scalar values is accepted. -/
theorem is_valid_utf8_encode_all (cs : List Nat) (h : ∀ c ∈ cs, is_scalar_value c = true) :
    is_valid_utf8 (utf8_encode_all cs) = true := by
  induction cs with
  | nil => rfl
  | cons c cs ih =>
    rw [utf8_encode_all, is_valid_utf8_encode_append c (h c (List.mem_cons_self c cs))]
    exact ih (fun d hd => h d (List.mem_cons_of_mem c hd))

theorem byte_ofNat_eq (b : std.byte) (n : Nat) (h : b.val = n) : (Fin.ofNat n : std.byte) = b := by
  apply Fin.ext
  have hb := b.isLt
  rw [byte_ofNat_val]
  omega

theorem utf8_encode_decode1 (b0 : std.byte) (h0 : b0.val < 0x80) :
    utf8_encode b0.val = [b0] := by
  unfold utf8_encode
  rw [if_pos h0, byte_ofNat_eq b0 _ rfl]

theorem utf8_encode_decode2 (b0 b1 : std.byte) (h0 : 0xC0 ≤ b0.val) (h0u : b0.val < 0xE0)
    (h1 : 0x80 ≤ b1.val) (h1u : b1.val < 0xC0)
    (hmin : 0x80 ≤ (b0.val - 0xC0) * 64 + (b1.val - 0x80)) :
    utf8_encode ((b0.val - 0xC0) * 64 + (b1.val - 0x80)) = [b0, b1] := by
  unfold utf8_encode
  rw [if_neg (by omega), if_pos (by omega), byte_ofNat_eq b0 _ (by omega),
    byte_ofNat_eq b1 _ (by omega)]

theorem utf8_encode_decode3 (b0 b1 b2 : std.byte) (h0 : 0xE0 ≤ b0.val) (h0u : b0.val < 0xF0)
    (h1 : 0x80 ≤ b1.val) (h1u : b1.val < 0xC0) (h2 : 0x80 ≤ b2.val) (h2u : b2.val < 0xC0)
    (hmin : 0x800 ≤ (b0.val - 0xE0) * 4096 + (b1.val - 0x80) * 64 + (b2.val - 0x80)) :
    utf8_encode ((b0.val - 0xE0) * 4096 + (b1.val - 0x80) * 64 + (b2.val - 0x80))
      = [b0, b1, b2] := by
  unfold utf8_encode
  rw [if_neg (by omega), if_neg (by omega), if_pos (by omega), byte_ofNat_eq b0 _ (by omega),
    byte_ofNat_eq b1 _ (by omega), byte_ofNat_eq b2 _ (by omega)]

theorem utf8_encode_decode4 (b0 b1 b2 b3 : std.byte) (h0 : 0xF0 ≤ b0.val) (h0u : b0.val < 0xF8)
    (h1 : 0x80 ≤ b1.val) (h1u : b1.val < 0xC0) (h2 : 0x80 ≤ b2.val) (h2u : b2.val < 0xC0)
    (h3 : 0x80 ≤ b3.val) (h3u : b3.val < 0xC0)
    (hmin : 0x10000 ≤ (b0.val - 0xF0) * 262144 + (b1.val - 0x80) * 4096
      + (b2.val - 0x80) * 64 + (b3.val - 0x80)) :
    utf8_encode ((b0.val - 0xF0) * 262144 + (b1.val - 0x80) * 4096
      + (b2.val - 0x80) * 64 + (b3.val - 0x80)) = [b0, b1, b2, b3] := by
  unfold utf8_encode
  rw [if_neg (by omega), if_neg (by omega), if_neg (by omega), byte_ofNat_eq b0 _ (by omega),
    byte_ofNat_eq b1 _ (by omega), byte_ofNat_eq b2 _ (by omega), byte_ofNat_eq b3 _ (by omega)]

theorem WellFormedUtf8.cons_encode {c : Nat} (bs : std.string) {t : std.string} (hc : is_scalar_value c = true)
    (he : utf8_encode c = bs) (ht : WellFormedUtf8 t) : WellFormedUtf8 (bs ++ t) := by
  obtain ⟨cs, hcs, rfl⟩ := ht
  refine ⟨c :: cs, ?_, ?_⟩
  · intro d hd
    rcases List.mem_cons.mp hd with rfl | hd
    · exact hc
    · exact hcs d hd
  · rw [utf8_encode_all, he]

theorem wellFormed_of_is_valid_utf8_aux (n : Nat) :
    ∀ s : std.string, s.length ≤ n → is_valid_utf8 s = true → WellFormedUtf8 s := by
  induction n with
  | zero =>
    intro s hs _
    have : s = [] := List.length_eq_zero.mp (Nat.le_zero.mp hs)
    subst this
    exact ⟨[], by simp, rfl⟩
  | succ n ih =>
    intro s hs hv
    match s, hs, hv with
    | [], _, _ => exact ⟨[], by simp, rfl⟩
    | b0 :: rest, hs, hv =>
      rw [is_valid_utf8_cons] at hv
      simp only [List.length_cons] at hs
      split_ifs at hv with c1 c2 c3 c4 c5
      · have ht := ih rest (by omega) hv
        exact WellFormedUtf8.cons_encode [b0]
          (by simp only [is_scalar_value, Bool.or_eq_true, decide_eq_true_eq]; left; omega)
          (utf8_encode_decode1 b0 c1) ht
      · match rest, hs, hv with
        | [], _, hv => cases hv
        | b1 :: rest1, hs, hv =>
          simp only [Bool.and_eq_true, decide_eq_true_eq, is_continuation] at hv
          obtain ⟨⟨⟨h1, h1u⟩, hmin⟩, hr⟩ := hv
          simp only [List.length_cons] at hs
          have ht := ih rest1 (by omega) hr
          exact WellFormedUtf8.cons_encode [b0, b1]
            (by simp only [is_scalar_value, Bool.or_eq_true, decide_eq_true_eq]; left; omega)
            (utf8_encode_decode2 b0 b1 (by omega) c3 h1 h1u hmin) ht
      · match rest, hs, hv with
        | [], _, hv => cases hv
        | [_], _, hv => cases hv
        | b1 :: b2 :: rest2, hs, hv =>
          simp only [Bool.and_eq_true, decide_eq_true_eq, is_continuation] at hv
          obtain ⟨⟨⟨⟨⟨h1, h1u⟩, h2, h2u⟩, hmin⟩, hsc⟩, hr⟩ := hv
          simp only [List.length_cons] at hs
          have ht := ih rest2 (by omega) hr
          exact WellFormedUtf8.cons_encode [b0, b1, b2] hsc
            (utf8_encode_decode3 b0 b1 b2 (by omega) c4 h1 h1u h2 h2u hmin) ht
      · match rest, hs, hv with
        | [], _, hv => cases hv
        | [_], _, hv => cases hv
        | [_, _], _, hv => cases hv
        | b1 :: b2 :: b3 :: rest3, hs, hv =>
          simp only [Bool.and_eq_true, decide_eq_true_eq, is_continuation] at hv
          obtain ⟨⟨⟨⟨⟨⟨h1, h1u⟩, h2, h2u⟩, h3, h3u⟩, hmin⟩, hsc⟩, hr⟩ := hv
          simp only [List.length_cons] at hs
          have ht := ih rest3 (by omega) hr
          exact WellFormedUtf8.cons_encode [b0, b1, b2, b3] hsc
            (utf8_encode_decode4 b0 b1 b2 b3 (by omega) c5 h1 h1u h2 h2u h3 h3u hmin) ht

/-- The validation accepts exactly the well-formed UTF-8 byte sequences. -/
theorem is_valid_utf8_iff (s : std.string) : is_valid_utf8 s = true ↔ WellFormedUtf8 s := by
  constructor
  · exact wellFormed_of_is_valid_utf8_aux s.length s (Nat.le_refl _)
  · rintro ⟨cs, hcs, rfl⟩
    exact is_valid_utf8_encode_all cs hcs

end json

/-! ## Tags, clones and the heap -/

namespace json

theorem String_set_type (x : String) (s : std.string) : (x.set s).self.type = x.type := by
  unfold String.set
  split <;> rfl

theorem Double_set_type (x : Double) (d : double) : (x.set d).self.type = x.type := by
  unfold Double.set
  split <;> rfl

theorem Double.ofDouble_type {d : double} {x : Double} (h : Double.ofDouble d = Except.ok x) :
    x.type = TYPE_DOUBLE := by
  cases hd : double.isfinite d
  · rw [Double.ofDouble_of_not_isfinite hd] at h; cases h
  · rw [Double.ofDouble_of_isfinite hd] at h
    injection h with h; subst h; rfl

/-- A mutation changes neither the class nor the tag of an object. -/
theorem mutate_preserves {o o1 : Object} {m : Mutation} (h : o.mutate m = some o1) :
    o1.dynamic_type = o.dynamic_type ∧ o1.type = o.type := by
  cases o <;> cases m <;> simp only [Object.mutate, Option.some.injEq, reduceCtorEq] at h <;>
    subst h
  · exact ⟨rfl, String_set_type _ _⟩
  · exact ⟨rfl, Double_set_type _ _⟩
  · exact ⟨rfl, rfl⟩
  · exact ⟨rfl, rfl⟩
  · exact ⟨rfl, rfl⟩

theorem clone_dynamic_type (o : Object) : o.clone.dynamic_type = o.dynamic_type := by
  cases o <;> rfl

/-- Every reachable object carries the tag of its class. -/
theorem Reachable.type_eq_tag {o : Object} (h : Reachable o) : o.type = o.dynamic_type.tag := by
  induction h with
  | Double_ofDouble hx => exact Double.ofDouble_type hx
  | String_copy _ ih => exact ih
  | @clone o1 _ ih =>
    cases o1 with
    | String s => exact ih
    | _ => rfl
  | mutate _ hm ih =>
    obtain ⟨h1, h2⟩ := mutate_preserves hm
    rw [h2, h1]; exact ih
  | _ => rfl

theorem Heap.get_append_left {h : Heap} {p : Nat} {o : Object} (o1 : Object)
    (hp : h.get p = some o) : Heap.get (h ++ [o1]) p = some o := by
  unfold Heap.get at *
  have hlt : p < h.length := (List.get?_eq_some.mp hp).1
  rw [List.get?_eq_getElem?, List.getElem?_append_left hlt, ← List.get?_eq_getElem?]; exact hp

theorem Heap.get_append_length (h : Heap) (o1 : Object) :
    Heap.get (h ++ [o1]) h.length = some o1 := by
  unfold Heap.get
  simp

theorem Heap.lt_length_of_get {h : Heap} {p : Nat} {o : Object} (hp : h.get p = some o) :
    p < h.length := (List.get?_eq_some.mp hp).1

/-- Frame property of a mutation: the object at any other address is left as it was. -/
theorem Heap.get_mutate_of_ne {h h1 : Heap} {p q : Nat} {m : Mutation}
    (hm : h.mutate p m = some h1) (hq : q ≠ p) : h1.get q = h.get q := by
  unfold Heap.mutate at hm
  split at hm
  · cases hm
  · split at hm
    · cases hm
    · injection hm with hm
      subst hm
      unfold Heap.get
      simp [List.getElem?_set, Ne.symm hq]

theorem Heap.get_mutate_all_of_ne {p q : Nat} (hq : q ≠ p) (ms : List Mutation) :
    ∀ h h1 : Heap, h.mutate_all p ms = some h1 → h1.get q = h.get q := by
  induction ms with
  | nil =>
    intro h h1 hm
    simp only [Heap.mutate_all, Option.some.injEq] at hm
    rw [hm]
  | cons m ms ih =>
    intro h h1 hm
    simp only [Heap.mutate_all] at hm
    split at hm
    · cases hm
    · rename_i h2 hstep
      rw [ih h2 h1 hm, Heap.get_mutate_of_ne hstep hq]

end json

/-! ## The contracts of the header -/

namespace json

/-- C1. For every `Double` instance `x` and every non-finite candidate `d` (a
NaN, positive infinity or negative infinity), `x.set(d)` throws
`InvalidFloatingPointException` and `x.value()` afterwards is what it was
before; in particular `Double().set(+infinity)` throws and `value()` is still
`0.0`. -/
theorem Double_set_nonfinite_rejected (x : Double) (d : double)
    (hd : double.isnan d = true ∨ d = double.posInf ∨ d = double.negInf) :
    ((x.set d).thrown
        = some (InvalidFloatingPointException "Non-finite double passed to json::Double.")
      ∧ (x.set d).self.value = x.value)
    ∧ ((Double.default.set double.posInf).thrown
        = some (InvalidFloatingPointException "Non-finite double passed to json::Double.")
      ∧ (Double.default.set double.posInf).self.value = double.zero) := by
  have h := Double.set_of_not_isfinite x (double.nonfinite_of_named hd)
  refine ⟨?_, rfl, rfl⟩
  rw [h]
  exact ⟨rfl, rfl⟩

/-- Instance of C1: `set(-infinity)` on a copy of an instance holding `1.0`. -/
theorem Double_set_nonfinite_rejected_witness :
    (double.isnan double.negInf = true ∨ double.negInf = double.posInf
        ∨ double.negInf = double.negInf)
    ∧ (((Double.copy { type := TYPE_DOUBLE, m_value := double.one }).set double.negInf).thrown
        = some (InvalidFloatingPointException "Non-finite double passed to json::Double.")
      ∧ ((Double.copy { type := TYPE_DOUBLE, m_value := double.one }).set double.negInf).self.value
        = (Double.copy { type := TYPE_DOUBLE, m_value := double.one }).value)
    ∧ ((Double.default.set double.posInf).thrown
        = some (InvalidFloatingPointException "Non-finite double passed to json::Double.")
      ∧ (Double.default.set double.posInf).self.value = double.zero) :=
  ⟨Or.inr (Or.inr rfl),
    Double_set_nonfinite_rejected (Double.copy { type := TYPE_DOUBLE, m_value := double.one })
      double.negInf (Or.inr (Or.inr rfl))⟩

/-- C2. Finiteness is an invariant of `Double`: every instance produced by a
constructor (default, from a `double`, copy), by `clone()`, or left behind by
any sequence of successful or failed `set` calls holds a finite payload; and
constructing `Double(d)` from a non-finite `d` throws, so no instance is
created. -/
theorem Double_payload_finite (x : Double) (hx : Reachable (Object.Double x)) :
    double.isfinite x.value = true
    ∧ ∀ d : double, double.isfinite d = false →
        Double.ofDouble d = Except.error
          (InvalidFloatingPointException "Non-finite double passed to json::Double.") :=
  ⟨Reachable.double_finite hx x rfl, fun _ hd => Double.ofDouble_of_not_isfinite hd⟩

/-- Instance of C2: the object left behind by the failed call `Double().set(+infinity)`. -/
theorem Double_payload_finite_witness :
    Reachable (Object.Double (Double.default.set double.posInf).self)
    ∧ double.isfinite (Double.default.set double.posInf).self.value = true
    ∧ ∀ d : double, double.isfinite d = false →
        Double.ofDouble d = Except.error
          (InvalidFloatingPointException "Non-finite double passed to json::Double.") :=
  have hr : Reachable (Object.Double (Double.default.set double.posInf).self) :=
    Reachable.mutate (m := Mutation.Double_set double.posInf) Reachable.Double_default rfl
  ⟨hr, Double_payload_finite _ hr⟩

/-- Byte sequences of the malformed kinds: a lone byte `0xFF`, the overlong
encoding `C0 80` of `U+0000`, the encoded surrogate `ED A0 80` (`U+D800`), and
the truncated sequence `E2 82`; none is well-formed UTF-8. -/
theorem malformed_examples :
    ¬ WellFormedUtf8 [0xFF] ∧ ¬ WellFormedUtf8 [0xC0, 0x80]
    ∧ ¬ WellFormedUtf8 [0xED, 0xA0, 0x80] ∧ ¬ WellFormedUtf8 [0xE2, 0x82] := by
  refine ⟨?_, ?_, ?_, ?_⟩ <;> rw [← is_valid_utf8_iff] <;> decide

/-- C3. The constructor `String(const std::string &)` stores a byte sequence
that is not well-formed UTF-8 without rejecting it: for the lone byte `0xFF`
the instance is created and its payload is that byte. -/
theorem String_ofString_accepts_malformed :
    ¬ WellFormedUtf8 [0xFF]
    ∧ String.ofString [0xFF] = { type := TYPE_STRING, m_value := [0xFF] }
    ∧ (String.ofString [0xFF]).value = [0xFF]
    ∧ Reachable (Object.String (String.ofString [0xFF])) :=
  ⟨malformed_examples.1, rfl, rfl, Reachable.String_ofString _⟩

/-- C4. For every `String` instance `x` and every byte sequence `s` that is not
well-formed UTF-8 (overlong, encoded surrogate, truncated, or otherwise
undecodable), `x.set(s)` throws `InvalidUtf8Exception` and `x.value()`
afterwards is what it was before. -/
theorem String_set_malformed_rejected (x : String) (s : std.string)
    (hs : ¬ WellFormedUtf8 s) :
    (∃ what : what_t, (x.set s).thrown = some (InvalidUtf8Exception what))
    ∧ (x.set s).self.value = x.value := by
  have hv : is_valid_utf8 s = false := by
    cases h : is_valid_utf8 s
    · rfl
    · exact absurd ((is_valid_utf8_iff s).mp h) hs
  have hset : x.set s = ⟨x, some (InvalidUtf8Exception "Invalid UTF-8.")⟩ := by
    simp [String.set, hv]
  rw [hset]
  exact ⟨⟨_, rfl⟩, rfl⟩

/-- Instance of C4: the overlong sequence `C0 80` passed to `set` on an instance holding "hi". -/
theorem String_set_malformed_rejected_witness :
    ¬ WellFormedUtf8 [0xC0, 0x80]
    ∧ (∃ what : what_t, ((String.ofString [0x68, 0x69]).set [0xC0, 0x80]).thrown
        = some (InvalidUtf8Exception what))
    ∧ ((String.ofString [0x68, 0x69]).set [0xC0, 0x80]).self.value
        = (String.ofString [0x68, 0x69]).value :=
  ⟨malformed_examples.2.1,
    String_set_malformed_rejected (String.ofString [0x68, 0x69]) [0xC0, 0x80]
      malformed_examples.2.1⟩

/-- C5. For every finite `double` `d`, constructing `Double(d)` succeeds and
`value()` of the instance is `d`: the same datum, which also compares equal
to `d` under the built-in `==`. -/
theorem Double_ofDouble_value (d : double) (hd : double.isfinite d = true) :
    ∃ x : Double, Double.ofDouble d = Except.ok x ∧ x.value = d
      ∧ double.eq x.value d = true :=
  ⟨{ type := TYPE_DOUBLE, m_value := d }, Double.ofDouble_of_isfinite hd, rfl,
    double.eq_self_of_isfinite hd⟩

/-- Instance of C5: the largest finite `double`. -/
theorem Double_ofDouble_value_witness :
    double.isfinite double.maxFinite = true
    ∧ ∃ x : Double, Double.ofDouble double.maxFinite = Except.ok x
      ∧ x.value = double.maxFinite ∧ double.eq x.value double.maxFinite = true :=
  ⟨rfl, Double_ofDouble_value double.maxFinite rfl⟩

/-- C6. For every well-formed UTF-8 byte sequence `s`, `String(s)` is
constructed (the constructor has no failing path) and `value()` returns `s`
byte for byte; the bytes `68 C3 A9 6C 6C 6F` of "héllo" are returned unchanged. -/
theorem String_ofString_value (s : std.string) (hs : WellFormedUtf8 s) :
    Reachable (Object.String (String.ofString s))
    ∧ (String.ofString s).value = s
    ∧ WellFormedUtf8 (String.ofString s).value
    ∧ (String.ofString [0x68, 0xC3, 0xA9, 0x6C, 0x6C, 0x6F]).value
        = [0x68, 0xC3, 0xA9, 0x6C, 0x6C, 0x6F] :=
  ⟨Reachable.String_ofString s, rfl, hs, rfl⟩

/-- Instance of C6: the bytes of "héllo", the encoding of `U+0068 U+00E9 U+006C U+006C U+006F`. -/
theorem String_ofString_value_witness :
    WellFormedUtf8 [0x68, 0xC3, 0xA9, 0x6C, 0x6C, 0x6F]
    ∧ Reachable (Object.String (String.ofString [0x68, 0xC3, 0xA9, 0x6C, 0x6C, 0x6F]))
    ∧ (String.ofString [0x68, 0xC3, 0xA9, 0x6C, 0x6C, 0x6F]).value
        = [0x68, 0xC3, 0xA9, 0x6C, 0x6C, 0x6F]
    ∧ WellFormedUtf8 (String.ofString [0x68, 0xC3, 0xA9, 0x6C, 0x6C, 0x6F]).value
    ∧ (String.ofString [0x68, 0xC3, 0xA9, 0x6C, 0x6C, 0x6F]).value
        = [0x68, 0xC3, 0xA9, 0x6C, 0x6C, 0x6F] :=
  have hw : WellFormedUtf8 [0x68, 0xC3, 0xA9, 0x6C, 0x6C, 0x6F] :=
    ⟨[0x68, 0xE9, 0x6C, 0x6C, 0x6F], by decide, by decide⟩
  ⟨hw, String_ofString_value _ hw⟩

/-- C7. Widening is lossless: for every `int` `i`, `BigInteger(Integer(i)).value`
is `i` as a mathematical integer, for negative `i` and for `INT_MIN` and
`INT_MAX` as for the rest. -/
theorem BigInteger_ofInteger_lossless (i : int) :
    (BigInteger.ofInteger (Integer.ofInt i)).value.val = i.val
    ∧ (BigInteger.ofInteger (Integer.ofInt INT_MIN)).value.val = -2147483648
    ∧ (BigInteger.ofInteger (Integer.ofInt INT_MAX)).value.val = 2147483647 := by
  have key : ∀ j : int, (BigInteger.ofInteger (Integer.ofInt j)).value.val = j.val := by
    intro j
    have h1 := j.property.1
    have h2 := j.property.2
    show wrap_intmax j.val = j.val
    unfold wrap_intmax
    omega
  exact ⟨key i, key INT_MIN, key INT_MAX⟩

/-- C8. For every instance `v` of each of the six classes, `v.clone()` is an
instance of the same class whose observable payload equals that of `v`, and
the clone of the clone has that payload too. -/
theorem clone_same_class_equal_payload (v : Object) :
    v.clone.dynamic_type = v.dynamic_type
    ∧ v.clone.payload = v.payload
    ∧ v.clone.clone.dynamic_type = v.dynamic_type
    ∧ v.clone.clone.payload = v.payload := by
  cases v <;> exact ⟨rfl, rfl, rfl, rfl⟩

/-- C9. Clone independence: when `v` points to an object `o`, `v->clone()`
returns a pointer `c` to a new object, distinct from `v`; no sequence of
mutations of `*c` changes the object (hence the payload) at `v`, and no
sequence of mutations of `*v` changes the object at `c`. After
`c = Integer(42).clone()` and `c->value = 7` the original still holds `42`. -/
theorem clone_independent (h : Heap) (v : Nat) (o : Object) (hv : h.get v = some o) :
    (∃ (c : Nat) (h1 : Heap), h.clone v = some (c, h1) ∧ c ≠ v
      ∧ h1.get v = some o ∧ h1.get c = some o.clone
      ∧ (∀ (ms : List Mutation) (h2 : Heap), h1.mutate_all c ms = some h2 →
          h2.get v = some o
          ∧ (h2.get v).map Object.payload = (h.get v).map Object.payload)
      ∧ (∀ (ms : List Mutation) (h2 : Heap), h1.mutate_all v ms = some h2 →
          h2.get c = some o.clone
          ∧ (h2.get c).map Object.payload = (h1.get c).map Object.payload))
    ∧ ((Heap.clone [Object.Integer (Integer.ofInt ⟨42, by decide⟩)] 0).bind
        (fun r => (r.2.mutate r.1 (Mutation.Integer_assign ⟨7, by decide⟩)).map
          (fun h2 => (r.1, (h2.get 0).map Object.payload, (h2.get r.1).map Object.payload)))
      = some (1, some (Payload.integer ⟨42, by decide⟩),
          some (Payload.integer ⟨7, by decide⟩))) := by
  refine ⟨⟨h.length, h ++ [o.clone], ?_, ?_, ?_, ?_, ?_, ?_⟩, rfl⟩
  · simp [Heap.clone, hv, Heap.alloc]
  · exact Nat.ne_of_gt (Heap.lt_length_of_get hv)
  · exact Heap.get_append_left _ hv
  · exact Heap.get_append_length h _
  · intro ms h2 hm
    have hne : v ≠ h.length := Nat.ne_of_lt (Heap.lt_length_of_get hv)
    have e := Heap.get_mutate_all_of_ne hne ms _ _ hm
    rw [e, Heap.get_append_left _ hv, hv]
    exact ⟨rfl, rfl⟩
  · intro ms h2 hm
    have hne : h.length ≠ v := Nat.ne_of_gt (Heap.lt_length_of_get hv)
    have e := Heap.get_mutate_all_of_ne hne ms _ _ hm
    rw [e]
    exact ⟨Heap.get_append_length h _, rfl⟩

/-- Instance of C9: a heap holding one default-constructed `Double`. -/
theorem clone_independent_witness :
    Heap.get [Object.Double Double.default] 0 = some (Object.Double Double.default)
    ∧ (∃ (c : Nat) (h1 : Heap), Heap.clone [Object.Double Double.default] 0 = some (c, h1)
      ∧ c ≠ 0
      ∧ h1.get 0 = some (Object.Double Double.default)
      ∧ h1.get c = some (Object.Double Double.default).clone
      ∧ (∀ (ms : List Mutation) (h2 : Heap), h1.mutate_all c ms = some h2 →
          h2.get 0 = some (Object.Double Double.default)
          ∧ (h2.get 0).map Object.payload
            = (Heap.get [Object.Double Double.default] 0).map Object.payload)
      ∧ (∀ (ms : List Mutation) (h2 : Heap), h1.mutate_all 0 ms = some h2 →
          h2.get c = some (Object.Double Double.default).clone
          ∧ (h2.get c).map Object.payload = (h1.get c).map Object.payload)) :=
  ⟨rfl, (clone_independent [Object.Double Double.default] 0 _ rfl).1⟩

/-- C10. Type-tag stability: every object produced by a constructor of the
header, by `clone()` or by mutation carries the tag of its own class; a
mutation, whether it returns or throws, leaves the tag as it was; and
`clone()` returns an object of the same class with the same tag, for `String`
(copied by the implicitly defined copy constructor) as for the other classes.
The last part lists the constructors one by one. -/
theorem type_tag_stable (o : Object) (ho : Reachable o) :
    o.type = o.dynamic_type.tag
    ∧ (o.clone.dynamic_type = o.dynamic_type ∧ o.clone.type = o.type)
    ∧ (∀ (m : Mutation) (o1 : Object), o.mutate m = some o1 →
        o1.dynamic_type = o.dynamic_type ∧ o1.type = o.type)
    ∧ (String.default.type = TYPE_STRING
      ∧ (∀ s : std.string, (String.ofString s).type = TYPE_STRING)
      ∧ (∀ x : String, (String.copy x).type = x.type)
      ∧ Double.default.type = TYPE_DOUBLE
      ∧ (∀ (d : double) (x : Double), Double.ofDouble d = Except.ok x → x.type = TYPE_DOUBLE)
      ∧ (∀ x : Double, (Double.copy x).type = TYPE_DOUBLE)
      ∧ Integer.default.type = TYPE_INTEGER
      ∧ (∀ i : int, (Integer.ofInt i).type = TYPE_INTEGER)
      ∧ (∀ x : Integer, (Integer.copy x).type = TYPE_INTEGER)
      ∧ BigInteger.default.type = TYPE_BIGINTEGER
      ∧ (∀ i : intmax_t, (BigInteger.ofIntmax i).type = TYPE_BIGINTEGER)
      ∧ (∀ x : BigInteger, (BigInteger.copy x).type = TYPE_BIGINTEGER)
      ∧ (∀ x : Integer, (BigInteger.ofInteger x).type = TYPE_BIGINTEGER)
      ∧ Bool.default.type = TYPE_BOOL
      ∧ (∀ b : bool, (Bool.ofBool b).type = TYPE_BOOL)
      ∧ (∀ x : Bool, (Bool.copy x).type = TYPE_BOOL)
      ∧ Null.default.type = TYPE_NULL
      ∧ (∀ x : Null, (Null.copy x).type = TYPE_NULL)) := by
  refine ⟨ho.type_eq_tag, ⟨clone_dynamic_type o, ?_⟩, fun m o1 hm => mutate_preserves hm, ?_⟩
  · rw [ho.clone.type_eq_tag, ho.type_eq_tag, clone_dynamic_type]
  · exact ⟨rfl, fun _ => rfl, fun _ => rfl, rfl, fun _ _ hx => Double.ofDouble_type hx,
      fun _ => rfl, rfl, fun _ => rfl, fun _ => rfl, rfl, fun _ => rfl, fun _ => rfl,
      fun _ => rfl, rfl, fun _ => rfl, fun _ => rfl, rfl, fun _ => rfl⟩

/-- Instance of C10: the object built by `String("hi")`. -/
theorem type_tag_stable_witness :
    Reachable (Object.String (String.ofString [0x68, 0x69]))
    ∧ (Object.String (String.ofString [0x68, 0x69])).type = TYPE_STRING
    ∧ ((Object.String (String.ofString [0x68, 0x69])).clone.dynamic_type = Class.String
      ∧ (Object.String (String.ofString [0x68, 0x69])).clone.type = TYPE_STRING) :=
  ⟨Reachable.String_ofString _,
    (type_tag_stable (Object.String (String.ofString [0x68, 0x69]))
      (Reachable.String_ofString _)).1,
    (type_tag_stable (Object.String (String.ofString [0x68, 0x69]))
      (Reachable.String_ofString _)).2.1⟩

end json

/-! ## Further contracts: exactness of `set`, defaults, the infallible classes -/

namespace json

theorem getLast?_cons_getD (d a : double) (l : List double) :
    ((d :: l).getLast?).getD a = (l.getLast?).getD d := by
  cases l with
  | nil => rfl
  | cons b t =>
    rw [List.getLast?_cons_cons]
    cases h : (b :: t).getLast? with
    | none => simp at h
    | some c => rfl

theorem last_finite_or_cons (p0 d : double) (ds : List double) :
    last_finite_or p0 (d :: ds) =
      last_finite_or (if double.isfinite d then d else p0) ds := by
  unfold last_finite_or
  cases hd : double.isfinite d
  · simp [List.filter, hd]
  · simp only [List.filter, hd, if_true]
    exact getLast?_cons_getD d p0 _

theorem Double.set_self_value (x : Double) (d : double) :
    (x.set d).self.value = if double.isfinite d then d else x.value := by
  cases hd : double.isfinite d
  · rw [Double.set_of_not_isfinite x hd]; simp
  · rw [Double.set_of_isfinite x hd]; simp [Double.value]

theorem Double.set_all_value (ds : List double) :
    ∀ x : Double, (x.set_all ds).value = last_finite_or x.value ds := by
  induction ds with
  | nil => intro x; rfl
  | cons d ds ih =>
    intro x
    rw [Double.set_all, ih, last_finite_or_cons, Double.set_self_value]

theorem Double.set_all_filter (ds : List double) :
    ∀ x : Double, x.set_all (ds.filter double.isfinite) = x.set_all ds := by
  induction ds with
  | nil => intro x; rfl
  | cons d ds ih =>
    intro x
    cases hd : double.isfinite d
    · rw [List.filter_cons_of_neg (by simp [hd]), Double.set_all,
        Double.set_of_not_isfinite x hd]
      exact ih x
    · rw [List.filter_cons_of_pos hd, Double.set_all, Double.set_all]
      exact ih _

/-- C11. `Double::set` fails exactly when its argument is not finite: for every
instance `x` and every `double` `d`, `x.set(d)` throws
`InvalidFloatingPointException` if and only if `d` is a NaN, positive infinity
or negative infinity; and whenever `d` is finite the call returns and
`x.value()` is `d` afterwards, whatever the payload was before. -/
theorem Double_set_fails_iff_nonfinite (x : Double) (d : double) :
    ((x.set d).thrown
        = some (InvalidFloatingPointException "Non-finite double passed to json::Double.")
      ↔ (double.isnan d = true ∨ d = double.posInf ∨ d = double.negInf))
    ∧ ((x.set d).thrown ≠ none
      ↔ (double.isnan d = true ∨ d = double.posInf ∨ d = double.negInf))
    ∧ (double.isfinite d = true →
        (x.set d).thrown = none ∧ (x.set d).self.value = d
        ∧ double.eq (x.set d).self.value d = true) := by
  have hnamed : double.isfinite d = false
      ↔ (double.isnan d = true ∨ d = double.posInf ∨ d = double.negInf) := by
    rw [double.isfinite_eq_false_iff, double.isinf_iff]
  cases hd : double.isfinite d
  · rw [Double.set_of_not_isfinite x hd]
    refine ⟨⟨fun _ => hnamed.mp hd, fun _ => rfl⟩, ⟨fun _ => hnamed.mp hd, fun _ => (by simp)⟩, ?_⟩
    intro h; cases h
  · rw [Double.set_of_isfinite x hd]
    have hno : ¬ (double.isnan d = true ∨ d = double.posInf ∨ d = double.negInf) := by
      intro h
      rw [← hnamed, hd] at h
      cases h
    refine ⟨⟨fun h => (by cases h), fun h => absurd h hno⟩,
      ⟨fun h => absurd rfl h, fun h => absurd h hno⟩, ?_⟩
    intro _
    exact ⟨rfl, rfl, double.eq_self_of_isfinite hd⟩

/-- Instance of C11: `set(-0.0)` on an instance holding the largest finite value. -/
theorem Double_set_fails_iff_nonfinite_witness :
    double.isfinite double.negZero = true
    ∧ ((Double.copy { type := TYPE_DOUBLE, m_value := double.maxFinite }).set
          double.negZero).thrown = none
    ∧ ((Double.copy { type := TYPE_DOUBLE, m_value := double.maxFinite }).set
          double.negZero).self.value = double.negZero
    ∧ double.eq ((Double.copy { type := TYPE_DOUBLE, m_value := double.maxFinite }).set
          double.negZero).self.value double.negZero = true :=
  ⟨rfl, (Double_set_fails_iff_nonfinite
    (Double.copy { type := TYPE_DOUBLE, m_value := double.maxFinite }) double.negZero).2.2 rfl⟩

/-- C12. Default construction yields the zero payload of each class:
`Double().value()` is `0.0`, `Integer().value` and `BigInteger().value` are
`0`, `Bool().value` is `false`, and `String().value()` is the empty byte
sequence. -/
theorem default_payloads :
    Double.default.value = double.zero
    ∧ double.eq Double.default.value double.zero = true
    ∧ Integer.default.value.val = 0
    ∧ BigInteger.default.value.val = 0
    ∧ Bool.default.value = false
    ∧ String.default.value = []
    ∧ String.default.value.length = 0 :=
  ⟨rfl, rfl, rfl, rfl, rfl, rfl, rfl⟩

/-- C13. `Integer`, `BigInteger`, `Bool` and `Null` never fail: for every
`int` `i`, every `intmax_t` `j` and every `bool` `b`, the constructors
produce an instance and assignment to the member `value` of an existing
instance goes through, and the payload read back is the value stored,
without range check, clamping or coercion. -/
theorem infallible_classes (i : int) (j : intmax_t) (b : bool)
    (x : Integer) (y : BigInteger) (z : Bool) (n : Null) :
    ((Integer.ofInt i).value = i ∧ (BigInteger.ofIntmax j).value = j
      ∧ (Bool.ofBool b).value = b)
    ∧ ((x.assign i).value = i ∧ (y.assign j).value = j ∧ (z.assign b).value = b)
    ∧ ((Object.Integer x).mutate (Mutation.Integer_assign i)
          = some (Object.Integer (x.assign i))
      ∧ (Object.BigInteger y).mutate (Mutation.BigInteger_assign j)
          = some (Object.BigInteger (y.assign j))
      ∧ (Object.Bool z).mutate (Mutation.Bool_assign b) = some (Object.Bool (z.assign b)))
    ∧ ((Object.Integer (Integer.ofInt i)).payload = Payload.integer i
      ∧ (Object.BigInteger (BigInteger.ofIntmax j)).payload = Payload.wide j
      ∧ (Object.Bool (Bool.ofBool b)).payload = Payload.boolean b
      ∧ (Object.Null Null.default).payload = Payload.nothing
      ∧ (Object.Null (Null.copy n)).payload = Payload.nothing)
    ∧ (Reachable (Object.Integer (Integer.ofInt i))
      ∧ Reachable (Object.BigInteger (BigInteger.ofIntmax j))
      ∧ Reachable (Object.Bool (Bool.ofBool b))
      ∧ Reachable (Object.Null Null.default)) :=
  ⟨⟨rfl, rfl, rfl⟩, ⟨rfl, rfl, rfl⟩, ⟨rfl, rfl, rfl⟩, ⟨rfl, rfl, rfl, rfl, rfl⟩,
    ⟨Reachable.Integer_ofInt i, Reachable.BigInteger_ofIntmax j, Reachable.Bool_ofBool b,
      Reachable.Null_default⟩⟩

/-- C14. The constructor `String(const std::string &)` performs no validation:
for every byte sequence `s`, well-formed UTF-8 or not, the instance is
constructed and `value()` returns `s`. It does not go through `set`: for the
lone byte `0xFF` the constructor yields an instance holding it although
`set` on a fresh instance throws and leaves the empty string; `Double(double)`
in contrast yields what `set` on a zero-initialized instance yields. -/
theorem String_ofString_unvalidated (s : std.string) :
    (String.ofString s = { type := TYPE_STRING, m_value := s }
      ∧ (String.ofString s).value = s
      ∧ Reachable (Object.String (String.ofString s)))
    ∧ (¬ WellFormedUtf8 [0xFF]
      ∧ (String.ofString [0xFF]).value = [0xFF]
      ∧ (String.default.set [0xFF]).thrown ≠ none
      ∧ (String.default.set [0xFF]).self.value = [])
    ∧ (∀ d : double, Double.ofDouble d =
        match (Double.default.set d).thrown with
        | some e => Except.error e
        | none => Except.ok (Double.default.set d).self) := by
  refine ⟨⟨rfl, rfl, Reachable.String_ofString s⟩,
    ⟨malformed_examples.1, rfl, by decide, by decide⟩, ?_⟩
  intro d
  cases hd : double.isfinite d
  · rw [Double.ofDouble_of_not_isfinite hd, Double.set_of_not_isfinite _ hd]
  · rw [Double.ofDouble_of_isfinite hd, Double.set_of_isfinite _ hd]
    rfl

/-- C15. Last successful write wins for `Double`: after the candidates
`d1..dn` are passed to `set` in order, each failure being caught, `value()`
is the last finite candidate, or the initial payload when no candidate is
finite; the failed calls have no effect: leaving them out gives the same
object. -/
theorem Double_last_finite_write_wins (x : Double) (ds : List double) :
    (x.set_all ds).value = last_finite_or x.value ds
    ∧ (x.set_all ds).value = ((ds.filter double.isfinite).getLast?).getD x.value
    ∧ x.set_all ds = x.set_all (ds.filter double.isfinite)
    ∧ (Double.default.set_all [double.one, double.qNaN, double.maxFinite, double.posInf]).value
        = double.maxFinite
    ∧ (Double.default.set_all [double.posInf, double.qNaN, double.negInf]).value
        = double.zero :=
  ⟨Double.set_all_value ds x, Double.set_all_value ds x, (Double.set_all_filter ds x).symm,
    rfl, rfl⟩

end json
